import Mathlib

/-!
Shallow embedding of `src/bcd/distributions.py` (Bayesian changepoint
detection, conjugate-prior bookkeeping): the abstract `Distribution`
contract and the `Gaussian` Normal-Inverse-Gamma family.  NumPy float
arrays are modelled as `List ℝ`, elementwise NumPy arithmetic as
`List.map`/`List.zipWith`, Python methods that mutate `self` as explicit
state passing, and `raise NotImplementedError` as an `Except` error value.
-/

/-- Error signalled by the base `Distribution` class: Python's
`NotImplementedError`. -/
inductive CallError where
  | notImplemented
deriving DecidableEq

/-- Embedding of the base class `Distribution.pdf`, whose body is
`raise NotImplementedError`. -/
def Distribution.pdf (_observation : ℝ) : Except CallError (List ℝ) :=
  .error .notImplemented

/-- Embedding of the base class `Distribution.update`, whose body is
`raise NotImplementedError`. -/
def Distribution.update (_observation : ℝ) : Except CallError Unit :=
  .error .notImplemented

/-- State of a `Gaussian` instance: the four prior copies
(`kappa0, mu0, alpha0, beta0`, each created as a length-1 array) and the
four current hyperparameter sequences, exactly the eight attributes the
Python class stores. -/
structure Gaussian where
  kappa0 : List ℝ
  mu0    : List ℝ
  alpha0 : List ℝ
  beta0  : List ℝ
  kappa  : List ℝ
  mu     : List ℝ
  alpha  : List ℝ
  beta   : List ℝ

/-- Embedding of `Gaussian.__init__`: each scalar prior is stored as a
length-1 array, aliased as both the prior copy and the current value. -/
def Gaussian.init (kappa mu alpha beta : ℝ) : Gaussian :=
  { kappa0 := [kappa], mu0 := [mu], alpha0 := [alpha], beta0 := [beta]
    kappa := [kappa], mu := [mu], alpha := [alpha], beta := [beta] }

/-- Non-standardized Student's-t probability density in the standard form
(df only), modelling the external `scipy.stats.t.pdf` density:
Gamma((df+1)/2) / (sqrt(pi*df) * Gamma(df/2)) * (1 + y^2/df)^(-(df+1)/2). -/
noncomputable def stdTPdf (df y : ℝ) : ℝ :=
  Real.Gamma ((df + 1) / 2) / (Real.sqrt (Real.pi * df) * Real.Gamma (df / 2)) *
    (1 + y ^ 2 / df) ^ (-((df + 1) / 2))

/-- Non-standardized Student's-t density with location and scale, as
`scipy.stats.t.pdf(x, df, loc, scale)` computes it: the standard density
at `(x - loc) / scale`, divided by `scale`. -/
noncomputable def tPdf (x df loc scale : ℝ) : ℝ :=
  stdTPdf df ((x - loc) / scale) / scale

/-- Embedding of `Gaussian.pdf`: elementwise posterior-predictive
variance `beta * (kappa + 1) / (alpha * kappa)`, then the Student's-t
density at the observation with `df = 2*alpha`, `loc = mu`,
`scale = sqrt(variance)`.  The vectorized NumPy expression over the four
equal-length arrays is rendered with `zipWith`. -/
noncomputable def Gaussian.pdf (g : Gaussian) (observation : ℝ) : List ℝ :=
  let variance := List.zipWith (fun bk ak => bk / ak)
    (List.zipWith (fun b k => b * (k + 1)) g.beta g.kappa)
    (List.zipWith (fun a k => a * k) g.alpha g.kappa)
  List.zipWith (fun am v => tPdf observation (2 * am.1) am.2 (Real.sqrt v))
    (g.alpha.zip g.mu) variance

/-- Embedding of `Gaussian.update`: the four elementwise conjugate
updates over the current sequences, then each new current sequence is the
prior copy concatenated with the updated sequence. -/
noncomputable def Gaussian.update (g : Gaussian) (observation : ℝ) : Gaussian :=
  let new_kappa := g.kappa.map (fun k => k + 1)
  let new_mu := List.zipWith (fun k m => (k * m + observation) / (k + 1)) g.kappa g.mu
  let new_alpha := g.alpha.map (fun a => a + 0.5)
  let new_beta := List.zipWith (fun b d => b + d) g.beta
    (List.zipWith (fun k m => k * (observation - m) ^ 2 / (2 * k + 2)) g.kappa g.mu)
  { g with
    kappa := g.kappa0 ++ new_kappa
    mu := g.mu0 ++ new_mu
    alpha := g.alpha0 ++ new_alpha
    beta := g.beta0 ++ new_beta }

/-- A sequence of `update` calls in arrival order. -/
noncomputable def Gaussian.updates (g : Gaussian) (xs : List ℝ) : Gaussian :=
  xs.foldl Gaussian.update g

/-- Python method call `g.pdf(x)` as a state transformer: the body of
`Gaussian.pdf` assigns to no attribute of `self`, so the post-state is
the pre-state and the return value is the density sequence. -/
noncomputable def Gaussian.pdfCall (g : Gaussian) (observation : ℝ) :
    Gaussian × List ℝ :=
  (g, g.pdf observation)

/-- Repeated `pdf` calls with the same observation and no intervening
`update`: state after the previous call feeds the next call. -/
noncomputable def Gaussian.pdfIter (g : Gaussian) (observation : ℝ) :
    ℕ → Gaussian × List ℝ
  | 0 => g.pdfCall observation
  | n + 1 => ((g.pdfIter observation n).1).pdfCall observation

/-- Reachability from given construction-time priors: the state is the
result of some arrival-ordered sequence of updates after `__init__`. -/
def Gaussian.ReachableFrom (k m a b : ℝ) (g : Gaussian) : Prop :=
  ∃ xs : List ℝ, g = (Gaussian.init k m a b).updates xs

/-- Well-formedness: prior copies have length 1 and the four current
sequences share one length. -/
def Gaussian.WF (g : Gaussian) : Prop :=
  g.kappa0.length = 1 ∧ g.mu0.length = 1 ∧ g.alpha0.length = 1 ∧
    g.beta0.length = 1 ∧ g.mu.length = g.kappa.length ∧
    g.alpha.length = g.kappa.length ∧ g.beta.length = g.kappa.length

/-- Elementwise strict positivity of kappa, alpha, beta and their prior
copies. -/
def Gaussian.Pos (g : Gaussian) : Prop :=
  (∀ c ∈ g.kappa0, 0 < c) ∧ (∀ c ∈ g.alpha0, 0 < c) ∧ (∀ c ∈ g.beta0, 0 < c) ∧
    (∀ c ∈ g.kappa, 0 < c) ∧ (∀ c ∈ g.alpha, 0 < c) ∧ (∀ c ∈ g.beta, 0 < c)

theorem exists_of_mem_zipWith {α β γ : Type} {f : α → β → γ} :
    ∀ {l₁ : List α} {l₂ : List β} {c : γ}, c ∈ List.zipWith f l₁ l₂ →
      ∃ a ∈ l₁, ∃ b ∈ l₂, c = f a b
  | a :: l₁, b :: l₂, c, h => by
    rcases List.mem_cons.mp h with h | h
    · exact ⟨a, List.mem_cons_self a _, b, List.mem_cons_self b _, h⟩
    · obtain ⟨a1, ha1, b1, hb1, rfl⟩ := exists_of_mem_zipWith h
      exact ⟨a1, List.mem_cons_of_mem _ ha1, b1, List.mem_cons_of_mem _ hb1, rfl⟩

theorem Gaussian.update_kappa0 (g : Gaussian) (x : ℝ) :
    (g.update x).kappa0 = g.kappa0 := rfl

theorem Gaussian.update_mu0 (g : Gaussian) (x : ℝ) :
    (g.update x).mu0 = g.mu0 := rfl

theorem Gaussian.update_alpha0 (g : Gaussian) (x : ℝ) :
    (g.update x).alpha0 = g.alpha0 := rfl

theorem Gaussian.update_beta0 (g : Gaussian) (x : ℝ) :
    (g.update x).beta0 = g.beta0 := rfl

theorem Gaussian.update_kappa (g : Gaussian) (x : ℝ) :
    (g.update x).kappa = g.kappa0 ++ g.kappa.map (fun k => k + 1) := rfl

theorem Gaussian.update_mu (g : Gaussian) (x : ℝ) :
    (g.update x).mu = g.mu0 ++
      List.zipWith (fun k m => (k * m + x) / (k + 1)) g.kappa g.mu := rfl

theorem Gaussian.update_alpha (g : Gaussian) (x : ℝ) :
    (g.update x).alpha = g.alpha0 ++ g.alpha.map (fun a => a + 0.5) := rfl

theorem Gaussian.update_beta (g : Gaussian) (x : ℝ) :
    (g.update x).beta = g.beta0 ++
      List.zipWith (fun b d => b + d) g.beta
        (List.zipWith (fun k m => k * (x - m) ^ 2 / (2 * k + 2)) g.kappa g.mu) := rfl

theorem Gaussian.updates_nil (g : Gaussian) : g.updates [] = g := rfl

theorem Gaussian.updates_cons (g : Gaussian) (x : ℝ) (xs : List ℝ) :
    g.updates (x :: xs) = (g.update x).updates xs := rfl

theorem Gaussian.updates_kappa0 (g : Gaussian) (xs : List ℝ) :
    (g.updates xs).kappa0 = g.kappa0 := by
  induction xs generalizing g with
  | nil => rfl
  | cons x xs ih => rw [Gaussian.updates_cons, ih, Gaussian.update_kappa0]

theorem Gaussian.updates_mu0 (g : Gaussian) (xs : List ℝ) :
    (g.updates xs).mu0 = g.mu0 := by
  induction xs generalizing g with
  | nil => rfl
  | cons x xs ih => rw [Gaussian.updates_cons, ih, Gaussian.update_mu0]

theorem Gaussian.updates_alpha0 (g : Gaussian) (xs : List ℝ) :
    (g.updates xs).alpha0 = g.alpha0 := by
  induction xs generalizing g with
  | nil => rfl
  | cons x xs ih => rw [Gaussian.updates_cons, ih, Gaussian.update_alpha0]

theorem Gaussian.updates_beta0 (g : Gaussian) (xs : List ℝ) :
    (g.updates xs).beta0 = g.beta0 := by
  induction xs generalizing g with
  | nil => rfl
  | cons x xs ih => rw [Gaussian.updates_cons, ih, Gaussian.update_beta0]

theorem Gaussian.wf_init (k m a b : ℝ) : (Gaussian.init k m a b).WF := by
  simp [Gaussian.init, Gaussian.WF]

theorem Gaussian.wf_update {g : Gaussian} (hg : g.WF) (x : ℝ) :
    (g.update x).WF ∧ (g.update x).kappa.length = g.kappa.length + 1 := by
  obtain ⟨h1, h2, h3, h4, h5, h6, h7⟩ := hg
  constructor
  · refine ⟨h1, h2, h3, h4, ?_, ?_, ?_⟩ <;>
      simp [Gaussian.update_kappa, Gaussian.update_mu, Gaussian.update_alpha,
        Gaussian.update_beta, h1, h2, h3, h4, h5, h6, h7]
  · simp [Gaussian.update_kappa, h1, Nat.add_comm]

theorem Gaussian.wf_updates {g : Gaussian} (hg : g.WF) (xs : List ℝ) :
    (g.updates xs).WF ∧
      (g.updates xs).kappa.length = g.kappa.length + xs.length := by
  induction xs generalizing g with
  | nil => exact ⟨hg, rfl⟩
  | cons x xs ih =>
    obtain ⟨hwf, hlen⟩ := Gaussian.wf_update hg x
    obtain ⟨hwf2, hlen2⟩ := ih hwf
    refine ⟨by simpa [Gaussian.updates_cons] using hwf2, ?_⟩
    rw [Gaussian.updates_cons, hlen2, hlen]
    simp [Nat.add_comm, Nat.add_assoc, Nat.add_left_comm]

theorem Gaussian.pos_init (k m a b : ℝ) (hk : 0 < k) (ha : 0 < a)
    (hb : 0 < b) : (Gaussian.init k m a b).Pos := by
  simp [Gaussian.init, Gaussian.Pos, hk, ha, hb]

theorem Gaussian.pos_update {g : Gaussian} (hg : g.Pos) (x : ℝ) :
    (g.update x).Pos := by
  obtain ⟨h1, h2, h3, h4, h5, h6⟩ := hg
  refine ⟨h1, h2, h3, ?_, ?_, ?_⟩
  · rw [Gaussian.update_kappa]
    intro c hc
    rcases List.mem_append.mp hc with hc | hc
    · exact h1 c hc
    · obtain ⟨a1, ha1, rfl⟩ := List.mem_map.mp hc
      have := h4 a1 ha1; linarith
  · rw [Gaussian.update_alpha]
    intro c hc
    rcases List.mem_append.mp hc with hc | hc
    · exact h2 c hc
    · obtain ⟨a1, ha1, rfl⟩ := List.mem_map.mp hc
      have := h5 a1 ha1; norm_num; linarith
  · rw [Gaussian.update_beta]
    intro c hc
    rcases List.mem_append.mp hc with hc | hc
    · exact h3 c hc
    · obtain ⟨b1, hb1, d1, hd1, rfl⟩ := exists_of_mem_zipWith hc
      obtain ⟨k1, hk1, m1, hm1, rfl⟩ := exists_of_mem_zipWith hd1
      have hbp := h6 b1 hb1
      have hkp := h4 k1 hk1
      have hdnn : 0 ≤ k1 * (x - m1) ^ 2 / (2 * k1 + 2) := by
        apply div_nonneg
        · positivity
        · linarith
      linarith

theorem Gaussian.pos_updates {g : Gaussian} (hg : g.Pos) (xs : List ℝ) :
    (g.updates xs).Pos := by
  induction xs generalizing g with
  | nil => exact hg
  | cons x xs ih =>
    rw [Gaussian.updates_cons]
    exact ih (Gaussian.pos_update hg x)

/-- Prior-tracking invariant: the prior copies hold exactly the
construction-time scalars and index 0 of each current sequence equals
the corresponding prior scalar. -/
def Gaussian.PriorInv (k m a b : ℝ) (g : Gaussian) : Prop :=
  g.kappa0 = [k] ∧ g.mu0 = [m] ∧ g.alpha0 = [a] ∧ g.beta0 = [b] ∧
    g.kappa.getD 0 0 = k ∧ g.mu.getD 0 0 = m ∧ g.alpha.getD 0 0 = a ∧
    g.beta.getD 0 0 = b

theorem Gaussian.priorInv_init (k m a b : ℝ) :
    (Gaussian.init k m a b).PriorInv k m a b := by
  simp [Gaussian.init, Gaussian.PriorInv]

theorem Gaussian.priorInv_update {k m a b : ℝ} {g : Gaussian}
    (hg : g.PriorInv k m a b) (x : ℝ) : (g.update x).PriorInv k m a b := by
  obtain ⟨h1, h2, h3, h4, _, _, _, _⟩ := hg
  refine ⟨h1, h2, h3, h4, ?_, ?_, ?_, ?_⟩ <;>
    simp [Gaussian.update_kappa, Gaussian.update_mu, Gaussian.update_alpha,
      Gaussian.update_beta, h1, h2, h3, h4]

theorem Gaussian.priorInv_updates {k m a b : ℝ} {g : Gaussian}
    (hg : g.PriorInv k m a b) (xs : List ℝ) :
    (g.updates xs).PriorInv k m a b := by
  induction xs generalizing g with
  | nil => exact hg
  | cons x xs ih =>
    rw [Gaussian.updates_cons]
    exact ih (Gaussian.priorInv_update hg x)

theorem Gaussian.pdf_length {g : Gaussian} (hg : g.WF) (x : ℝ) :
    (g.pdf x).length = g.kappa.length := by
  obtain ⟨_, _, _, _, h5, h6, h7⟩ := hg
  simp [Gaussian.pdf, h5, h6, h7]

/-- Claim C3: after exactly t update calls from construction, each of the four
hyperparameter sequences has length t+1, all lengths agree, and `pdf`
returns a sequence of length t+1. -/
theorem length_invariant_spec (k m a b : ℝ) (xs : List ℝ) (x : ℝ) :
    ((Gaussian.init k m a b).updates xs).kappa.length = xs.length + 1 ∧
    ((Gaussian.init k m a b).updates xs).mu.length = xs.length + 1 ∧
    ((Gaussian.init k m a b).updates xs).alpha.length = xs.length + 1 ∧
    ((Gaussian.init k m a b).updates xs).beta.length = xs.length + 1 ∧
    (((Gaussian.init k m a b).updates xs).pdf x).length = xs.length + 1 := by
  obtain ⟨hwf, hlen⟩ := Gaussian.wf_updates (Gaussian.wf_init k m a b) xs
  have hinit : (Gaussian.init k m a b).kappa.length = 1 := rfl
  rw [hinit, Nat.add_comm] at hlen
  obtain ⟨_, _, _, _, h5, h6, h7⟩ := hwf
  exact ⟨hlen, by rw [h5, hlen], by rw [h6, hlen], by rw [h7, hlen],
    by rw [Gaussian.pdf_length ⟨by assumption, by assumption, by assumption,
      by assumption, h5, h6, h7⟩, hlen]⟩

/-- Claim C4: for any number of updates with arbitrary observations, the
stored prior copies `kappa0, mu0, alpha0, beta0` still hold exactly the
construction-time scalars, and index 0 of each current sequence equals
the corresponding construction-time prior. -/
theorem prior_immutable_spec (k m a b : ℝ) (xs : List ℝ) :
    ((Gaussian.init k m a b).updates xs).kappa0 = [k] ∧
    ((Gaussian.init k m a b).updates xs).mu0 = [m] ∧
    ((Gaussian.init k m a b).updates xs).alpha0 = [a] ∧
    ((Gaussian.init k m a b).updates xs).beta0 = [b] ∧
    ((Gaussian.init k m a b).updates xs).kappa.getD 0 0 = k ∧
    ((Gaussian.init k m a b).updates xs).mu.getD 0 0 = m ∧
    ((Gaussian.init k m a b).updates xs).alpha.getD 0 0 = a ∧
    ((Gaussian.init k m a b).updates xs).beta.getD 0 0 = b :=
  Gaussian.priorInv_updates (Gaussian.priorInv_init k m a b) xs

/-- Claim C5: when constructed with kappa, alpha, beta strictly positive,
after any sequence of updates with arbitrary observations every element
of the kappa, alpha and beta sequences is strictly positive. -/
theorem positive_invariant_spec (k m a b : ℝ) (hk : 0 < k) (ha : 0 < a)
    (hb : 0 < b) (xs : List ℝ) :
    (∀ c ∈ ((Gaussian.init k m a b).updates xs).kappa, 0 < c) ∧
    (∀ c ∈ ((Gaussian.init k m a b).updates xs).alpha, 0 < c) ∧
    (∀ c ∈ ((Gaussian.init k m a b).updates xs).beta, 0 < c) := by
  have h := Gaussian.pos_updates (Gaussian.pos_init k m a b hk ha hb) xs
  exact ⟨h.2.2.2.1, h.2.2.2.2.1, h.2.2.2.2.2⟩

/-- Witness for C5 at priors (1, 0, 1, 1) and observations [2, -3]. -/
theorem positive_invariant_witness :
    (0:ℝ) < 1 ∧
    ((∀ c ∈ ((Gaussian.init 1 0 1 1).updates [2, -3]).kappa, 0 < c) ∧
     (∀ c ∈ ((Gaussian.init 1 0 1 1).updates [2, -3]).alpha, 0 < c) ∧
     (∀ c ∈ ((Gaussian.init 1 0 1 1).updates [2, -3]).beta, 0 < c)) :=
  ⟨one_pos, positive_invariant_spec 1 0 1 1 one_pos one_pos one_pos [2, -3]⟩

/-- Counterexample for C8: construction with non-positive kappa, alpha and
beta does not fail — `__init__` performs no validation and the state is
created with the offending values stored unchanged. -/
theorem init_accepts_nonpositive_counterexample :
    (Gaussian.init (-1) 0 (-1) (-1)).kappa = [-1] ∧
    (Gaussian.init (-1) 0 (-1) (-1)).alpha = [-1] ∧
    (Gaussian.init (-1) 0 (-1) (-1)).beta = [-1] :=
  ⟨rfl, rfl, rfl⟩

/-- Amended claim C8: construction never fails and performs no validation of
the priors — the four given scalars, positive or not, are stored
unchanged as both the prior copies and the initial current sequences. -/
theorem init_no_validation_spec (k m a b : ℝ) :
    Gaussian.init k m a b =
      { kappa0 := [k], mu0 := [m], alpha0 := [a], beta0 := [b]
        kappa := [k], mu := [m], alpha := [a], beta := [b] } := rfl

theorem getD_map_lt {α β : Type} (f : α → β) (l : List α) (i : ℕ)
    (h : i < l.length) (d : α) (e : β) :
    (l.map f).getD i e = f (l.getD i d) := by
  rw [List.getD_eq_getElem _ e (by simpa using h), List.getD_eq_getElem _ d h,
    List.getElem_map]

theorem getD_zipWith_lt {α β γ : Type} (f : α → β → γ) (l₁ : List α)
    (l₂ : List β) (i : ℕ) (h₁ : i < l₁.length) (h₂ : i < l₂.length)
    (d₁ : α) (d₂ : β) (d₃ : γ) :
    (List.zipWith f l₁ l₂).getD i d₃ = f (l₁.getD i d₁) (l₂.getD i d₂) := by
  rw [List.getD_eq_getElem _ d₃ (by simp [List.length_zipWith]; omega),
    List.getD_eq_getElem _ d₁ h₁, List.getD_eq_getElem _ d₂ h₂,
    List.getElem_zipWith]

theorem getD_zip_lt {α β : Type} (l₁ : List α) (l₂ : List β) (i : ℕ)
    (h₁ : i < l₁.length) (h₂ : i < l₂.length) (d₁ : α) (d₂ : β) :
    (l₁.zip l₂).getD i (d₁, d₂) = (l₁.getD i d₁, l₂.getD i d₂) := by
  rw [List.getD_eq_getElem _ _ (by simp [List.length_zip]; omega),
    List.getD_eq_getElem _ d₁ h₁, List.getD_eq_getElem _ d₂ h₂,
    List.getElem_zip]

/-- Pointwise description of one update step, for a state with
length-matched sequences and recorded priors. -/
theorem Gaussian.update_getD {g : Gaussian} {k m a b : ℝ}
    (h0k : g.kappa0 = [k]) (h0m : g.mu0 = [m]) (h0a : g.alpha0 = [a])
    (h0b : g.beta0 = [b]) (hm : g.mu.length = g.kappa.length)
    (ha : g.alpha.length = g.kappa.length)
    (hb : g.beta.length = g.kappa.length) (x : ℝ) (i : ℕ)
    (hi : i < g.kappa.length) :
    (g.update x).kappa.getD (i + 1) 0 = g.kappa.getD i 0 + 1 ∧
    (g.update x).mu.getD (i + 1) 0 =
      (g.kappa.getD i 0 * g.mu.getD i 0 + x) / (g.kappa.getD i 0 + 1) ∧
    (g.update x).alpha.getD (i + 1) 0 = g.alpha.getD i 0 + 0.5 ∧
    (g.update x).beta.getD (i + 1) 0 =
      g.beta.getD i 0 + g.kappa.getD i 0 * (x - g.mu.getD i 0) ^ 2 /
        (2 * g.kappa.getD i 0 + 2) ∧
    (g.update x).kappa.getD 0 0 = k ∧ (g.update x).mu.getD 0 0 = m ∧
    (g.update x).alpha.getD 0 0 = a ∧ (g.update x).beta.getD 0 0 = b := by
  have hmu : i < g.mu.length := by omega
  have hal : i < g.alpha.length := by omega
  have hbe : i < g.beta.length := by omega
  have hz : i < (List.zipWith
      (fun kk mm => kk * (x - mm) ^ 2 / (2 * kk + 2)) g.kappa g.mu).length := by
    simp [List.length_zipWith]; omega
  refine ⟨?_, ?_, ?_, ?_, ?_, ?_, ?_, ?_⟩
  · rw [Gaussian.update_kappa, h0k, List.singleton_append,
      List.getD_cons_succ, getD_map_lt _ _ _ hi 0]
  · rw [Gaussian.update_mu, h0m, List.singleton_append, List.getD_cons_succ,
      getD_zipWith_lt _ _ _ _ hi hmu 0 0]
  · rw [Gaussian.update_alpha, h0a, List.singleton_append,
      List.getD_cons_succ, getD_map_lt _ _ _ hal 0]
  · rw [Gaussian.update_beta, h0b, List.singleton_append, List.getD_cons_succ,
      getD_zipWith_lt _ _ _ _ hbe hz 0 0,
      getD_zipWith_lt _ _ _ _ hi hmu 0 0]
  · rw [Gaussian.update_kappa, h0k, List.singleton_append, List.getD_cons_zero]
  · rw [Gaussian.update_mu, h0m, List.singleton_append, List.getD_cons_zero]
  · rw [Gaussian.update_alpha, h0a, List.singleton_append, List.getD_cons_zero]
  · rw [Gaussian.update_beta, h0b, List.singleton_append, List.getD_cons_zero]

/-- Claim C1: in every state reachable from construction, `update x` prepends
the construction-time prior and maps each old index i to index i+1 via
the conjugate update formulas for kappa, mu, alpha, beta. -/
theorem update_pointwise_spec (k m a b x : ℝ) (g : Gaussian)
    (hg : g.ReachableFrom k m a b) (i : ℕ) (hi : i < g.kappa.length) :
    (g.update x).kappa.getD (i + 1) 0 = g.kappa.getD i 0 + 1 ∧
    (g.update x).mu.getD (i + 1) 0 =
      (g.kappa.getD i 0 * g.mu.getD i 0 + x) / (g.kappa.getD i 0 + 1) ∧
    (g.update x).alpha.getD (i + 1) 0 = g.alpha.getD i 0 + 0.5 ∧
    (g.update x).beta.getD (i + 1) 0 =
      g.beta.getD i 0 + g.kappa.getD i 0 * (x - g.mu.getD i 0) ^ 2 /
        (2 * g.kappa.getD i 0 + 2) ∧
    (g.update x).kappa.getD 0 0 = k ∧ (g.update x).mu.getD 0 0 = m ∧
    (g.update x).alpha.getD 0 0 = a ∧ (g.update x).beta.getD 0 0 = b := by
  obtain ⟨xs, rfl⟩ := hg
  obtain ⟨hwf, _⟩ := Gaussian.wf_updates (Gaussian.wf_init k m a b) xs
  obtain ⟨_, _, _, _, h5, h6, h7⟩ := hwf
  obtain ⟨p1, p2, p3, p4, _, _, _, _⟩ :=
    Gaussian.priorInv_updates (Gaussian.priorInv_init k m a b) xs
  exact Gaussian.update_getD p1 p2 p3 p4 h5 h6 h7 x i hi

/-- Witness for C1: priors (1, 0, 1, 1), no prior updates, observation
2, index 0. -/
theorem update_pointwise_witness :
    (Gaussian.init 1 0 1 1).ReachableFrom 1 0 1 1 ∧
    0 < (Gaussian.init 1 0 1 1).kappa.length ∧
    (((Gaussian.init 1 0 1 1).update 2).kappa.getD (0 + 1) 0 =
        (Gaussian.init 1 0 1 1).kappa.getD 0 0 + 1 ∧
      ((Gaussian.init 1 0 1 1).update 2).mu.getD (0 + 1) 0 =
        ((Gaussian.init 1 0 1 1).kappa.getD 0 0 *
            (Gaussian.init 1 0 1 1).mu.getD 0 0 + 2) /
          ((Gaussian.init 1 0 1 1).kappa.getD 0 0 + 1) ∧
      ((Gaussian.init 1 0 1 1).update 2).alpha.getD (0 + 1) 0 =
        (Gaussian.init 1 0 1 1).alpha.getD 0 0 + 0.5 ∧
      ((Gaussian.init 1 0 1 1).update 2).beta.getD (0 + 1) 0 =
        (Gaussian.init 1 0 1 1).beta.getD 0 0 +
          (Gaussian.init 1 0 1 1).kappa.getD 0 0 *
            (2 - (Gaussian.init 1 0 1 1).mu.getD 0 0) ^ 2 /
          (2 * (Gaussian.init 1 0 1 1).kappa.getD 0 0 + 2) ∧
      ((Gaussian.init 1 0 1 1).update 2).kappa.getD 0 0 = 1 ∧
      ((Gaussian.init 1 0 1 1).update 2).mu.getD 0 0 = 0 ∧
      ((Gaussian.init 1 0 1 1).update 2).alpha.getD 0 0 = 1 ∧
      ((Gaussian.init 1 0 1 1).update 2).beta.getD 0 0 = 1) :=
  ⟨⟨[], rfl⟩, Nat.one_pos,
    update_pointwise_spec 1 0 1 1 2 (Gaussian.init 1 0 1 1) ⟨[], rfl⟩ 0
      Nat.one_pos⟩

/-- Claim C2: for equal-length hyperparameter sequences of length n, `pdf`
returns n densities, entry i being the non-standardized Student's-t
density at the observation with df 2*alpha[i], location mu[i] and scale
sqrt(beta[i]*(kappa[i]+1)/(alpha[i]*kappa[i])), in index order. -/
theorem pdf_pointwise_spec (g : Gaussian) (x : ℝ) (n : ℕ)
    (hk : g.kappa.length = n) (hm : g.mu.length = n)
    (ha : g.alpha.length = n) (hb : g.beta.length = n) :
    (g.pdf x).length = n ∧
    ∀ i, i < n → (g.pdf x).getD i 0 =
      tPdf x (2 * g.alpha.getD i 0) (g.mu.getD i 0)
        (Real.sqrt (g.beta.getD i 0 * (g.kappa.getD i 0 + 1) /
          (g.alpha.getD i 0 * g.kappa.getD i 0))) := by
  constructor
  · simp [Gaussian.pdf, hk, hm, ha, hb]
  · intro i hi
    have hik : i < g.kappa.length := by omega
    have him : i < g.mu.length := by omega
    have hia : i < g.alpha.length := by omega
    have hib : i < g.beta.length := by omega
    have hzam : i < (g.alpha.zip g.mu).length := by
      simp [List.length_zip]; omega
    have hzbk : i < (List.zipWith (fun b k => b * (k + 1)) g.beta
        g.kappa).length := by simp [List.length_zipWith]; omega
    have hzak : i < (List.zipWith (fun a k => a * k) g.alpha
        g.kappa).length := by simp [List.length_zipWith]; omega
    have hvar : i < (List.zipWith (fun bk ak => bk / ak)
        (List.zipWith (fun b k => b * (k + 1)) g.beta g.kappa)
        (List.zipWith (fun a k => a * k) g.alpha g.kappa)).length := by
      simp [List.length_zipWith]; omega
    show (List.zipWith (fun am v => tPdf x (2 * am.1) am.2 (Real.sqrt v))
        (g.alpha.zip g.mu) _).getD i 0 = _
    rw [getD_zipWith_lt _ _ _ _ hzam hvar (0, 0) 0,
      getD_zip_lt _ _ _ hia him 0 0,
      getD_zipWith_lt _ _ _ _ hzbk hzak 0 0,
      getD_zipWith_lt _ _ _ _ hib hik 0 0,
      getD_zipWith_lt _ _ _ _ hia hik 0 0]

/-- Witness for C2 at the freshly constructed Gaussian(1, 0, 1, 1). -/
theorem pdf_pointwise_witness :
    (Gaussian.init 1 0 1 1).kappa.length = 1 ∧
    (Gaussian.init 1 0 1 1).mu.length = 1 ∧
    (Gaussian.init 1 0 1 1).alpha.length = 1 ∧
    (Gaussian.init 1 0 1 1).beta.length = 1 ∧
    (((Gaussian.init 1 0 1 1).pdf 0).length = 1 ∧
      ∀ i, i < 1 → ((Gaussian.init 1 0 1 1).pdf 0).getD i 0 =
        tPdf 0 (2 * (Gaussian.init 1 0 1 1).alpha.getD i 0)
          ((Gaussian.init 1 0 1 1).mu.getD i 0)
          (Real.sqrt ((Gaussian.init 1 0 1 1).beta.getD i 0 *
              ((Gaussian.init 1 0 1 1).kappa.getD i 0 + 1) /
            ((Gaussian.init 1 0 1 1).alpha.getD i 0 *
              (Gaussian.init 1 0 1 1).kappa.getD i 0)))) :=
  ⟨rfl, rfl, rfl, rfl,
    pdf_pointwise_spec (Gaussian.init 1 0 1 1) 0 1 rfl rfl rfl rfl⟩

/-- Claim C10: with positive construction priors, in every reachable state
the denominators used by update and pdf — kappa[i] + 1, 2*kappa[i] + 2
and alpha[i]*kappa[i] — are strictly positive at every index. -/
theorem denominators_positive_spec (k m a b : ℝ) (hk : 0 < k) (ha : 0 < a)
    (hb : 0 < b) (xs : List ℝ) (i : ℕ)
    (hi : i < ((Gaussian.init k m a b).updates xs).kappa.length) :
    0 < ((Gaussian.init k m a b).updates xs).kappa.getD i 0 + 1 ∧
    0 < 2 * ((Gaussian.init k m a b).updates xs).kappa.getD i 0 + 2 ∧
    0 < ((Gaussian.init k m a b).updates xs).alpha.getD i 0 *
        ((Gaussian.init k m a b).updates xs).kappa.getD i 0 := by
  have hpos := Gaussian.pos_updates (Gaussian.pos_init k m a b hk ha hb) xs
  obtain ⟨hwf, _⟩ := Gaussian.wf_updates (Gaussian.wf_init k m a b) xs
  obtain ⟨_, _, _, _, _, h6, _⟩ := hwf
  have hia : i < ((Gaussian.init k m a b).updates xs).alpha.length := by
    omega
  have hkp : 0 < ((Gaussian.init k m a b).updates xs).kappa.getD i 0 := by
    apply hpos.2.2.2.1
    rw [List.getD_eq_getElem _ _ hi]
    exact List.getElem_mem hi
  have hap : 0 < ((Gaussian.init k m a b).updates xs).alpha.getD i 0 := by
    apply hpos.2.2.2.2.1
    rw [List.getD_eq_getElem _ _ hia]
    exact List.getElem_mem hia
  exact ⟨by linarith, by linarith, mul_pos hap hkp⟩

/-- Witness for C10 at priors (1, 0, 1, 1), observations [5], index 1. -/
theorem denominators_positive_witness :
    (0:ℝ) < 1 ∧ 1 < ((Gaussian.init 1 0 1 1).updates [5]).kappa.length ∧
    (0 < ((Gaussian.init 1 0 1 1).updates [5]).kappa.getD 1 0 + 1 ∧
      0 < 2 * ((Gaussian.init 1 0 1 1).updates [5]).kappa.getD 1 0 + 2 ∧
      0 < ((Gaussian.init 1 0 1 1).updates [5]).alpha.getD 1 0 *
          ((Gaussian.init 1 0 1 1).updates [5]).kappa.getD 1 0) :=
  ⟨one_pos, Nat.one_lt_two,
    denominators_positive_spec 1 0 1 1 one_pos one_pos one_pos [5] 1
      Nat.one_lt_two⟩

/-- Claim C6: `pdf` is pure — the post-state of a `pdf` call is the pre-state
(all eight stored attributes unchanged), and any number of repeated
`pdf` calls with the same observation and no intervening `update`
return the identical density sequence. -/
theorem pdf_pure_spec (g : Gaussian) (x : ℝ) (n : ℕ) :
    (g.pdfCall x).1 = g ∧ g.pdfIter x n = (g, g.pdf x) := by
  refine ⟨rfl, ?_⟩
  induction n with
  | zero => rfl
  | succ n ih => rw [Gaussian.pdfIter, ih]; rfl

theorem stdTPdf_pos {df : ℝ} (hdf : 0 < df) (y : ℝ) : 0 < stdTPdf df y := by
  unfold stdTPdf
  have h1 : 0 < Real.Gamma ((df + 1) / 2) :=
    Real.Gamma_pos_of_pos (by linarith)
  have h2 : 0 < Real.Gamma (df / 2) := Real.Gamma_pos_of_pos (by linarith)
  have h3 : 0 < Real.sqrt (Real.pi * df) :=
    Real.sqrt_pos.mpr (mul_pos Real.pi_pos hdf)
  have h4 : 0 < 1 + y ^ 2 / df := by positivity
  have h5 : 0 < (1 + y ^ 2 / df) ^ (-((df + 1) / 2)) :=
    Real.rpow_pos_of_pos h4 _
  positivity

theorem tPdf_pos {df scale : ℝ} (hdf : 0 < df) (hs : 0 < scale)
    (x loc : ℝ) : 0 < tPdf x df loc scale :=
  div_pos (stdTPdf_pos hdf _) hs

/-- Claim C7: concrete scenario — Gaussian(1, 0, 1, 1) after update(0) holds
sequences of length 2 with index 0 the prior (1, 0, 1, 1) and index 1
equal to (2, 0, 1.5, 1); pdf(0) then returns the Student's-t densities
with (df 2, loc 0, scale sqrt 2) and (df 3, loc 0, scale 1), in that
order, both strictly positive. -/
theorem concrete_scenario_spec :
    ((Gaussian.init 1 0 1 1).update 0).kappa = [1, 2] ∧
    ((Gaussian.init 1 0 1 1).update 0).mu = [0, 0] ∧
    ((Gaussian.init 1 0 1 1).update 0).alpha = [1, 1.5] ∧
    ((Gaussian.init 1 0 1 1).update 0).beta = [1, 1] ∧
    ((Gaussian.init 1 0 1 1).update 0).pdf 0 =
      [tPdf 0 2 0 (Real.sqrt 2), tPdf 0 3 0 1] ∧
    0 < tPdf 0 2 0 (Real.sqrt 2) ∧ 0 < tPdf 0 3 0 1 := by
  refine ⟨?_, ?_, ?_, ?_, ?_, ?_, ?_⟩
  · norm_num [Gaussian.init, Gaussian.update]
  · norm_num [Gaussian.init, Gaussian.update]
  · norm_num [Gaussian.init, Gaussian.update]
  · norm_num [Gaussian.init, Gaussian.update]
  · norm_num [Gaussian.init, Gaussian.update, Gaussian.pdf]
  · exact tPdf_pos two_pos (Real.sqrt_pos.mpr two_pos) 0 0
  · exact tPdf_pos three_pos one_pos 0 0

/-- Claim C9: the base Distribution capability signals
contract-not-implemented (Python NotImplementedError) on every `pdf` or
`update` call, returning no placeholder value. -/
theorem base_not_implemented_spec (x : ℝ) :
    Distribution.pdf x = Except.error CallError.notImplemented ∧
    Distribution.update x = Except.error CallError.notImplemented :=
  ⟨rfl, rfl⟩
